import Mathlib

/-!
# Shallow embedding of the `survival` engine's dynamic BVH

This file embeds the AABB geometry layer (`src/engine/aabb.rs`), the sphere
(`src/engine/sphere.rs`), the frustrum types (`src/engine/frustrum.rs`,
`src/engine/plane.rs`) and the dynamic bounding-volume hierarchy
(`src/engine/bvh.rs`) into Lean, and proves / refutes the specification's
claims about them.

Modelling conventions:
* `f32` scalars are modelled as `ℚ` with exact arithmetic.  All claims
  settled here depend only on comparisons and min/max computations whose
  outcomes at the chosen inputs are robust to `f32` rounding.
* The slab ray test (`AABB::raycast`) divides by ray-direction components
  that may be zero, producing IEEE signed infinities; for it we use a
  dedicated extended-scalar type `EF` (finite rational, `+∞`, `-∞`, `NaN`)
  with Rust's `f32::min` / `f32::max` NaN-ignoring semantics.
* Rust panics (failed `assert!`, out-of-bounds `Vec` indexing) and
  non-termination are modelled by `Option`: state-mutating operations
  return `none` exactly when the Rust code would trap (or when an
  explicit fuel bound, always chosen large enough for well-formed trees,
  is exhausted).
* The `StdRng` used by `BVH::new_internal_node` is modelled as a stream
  (list) of booleans, one per internal-node creation, recording whether
  the sampled `x ∈ [0,1)` satisfied `x < 0.5`.
-/

namespace Survival

/-- A 3-component vector over exact rationals, modelling `nalgebra_glm::Vec3`. -/
structure Vec3 where
  x : ℚ
  y : ℚ
  z : ℚ
deriving DecidableEq, Repr

namespace Vec3

/-- Component-wise subtraction of vectors. -/
def sub (a b : Vec3) : Vec3 := ⟨a.x - b.x, a.y - b.y, a.z - b.z⟩

/-- Component-wise addition of vectors. -/
def add (a b : Vec3) : Vec3 := ⟨a.x + b.x, a.y + b.y, a.z + b.z⟩

/-- Scalar multiplication, modelling `scalar * vec`. -/
def smul (k : ℚ) (a : Vec3) : Vec3 := ⟨k * a.x, k * a.y, k * a.z⟩

/-- `nalgebra_glm::min2`: component-wise minimum. -/
def min2 (a b : Vec3) : Vec3 := ⟨min a.x b.x, min a.y b.y, min a.z b.z⟩

/-- `nalgebra_glm::max2`: component-wise maximum. -/
def max2 (a b : Vec3) : Vec3 := ⟨max a.x b.x, max a.y b.y, max a.z b.z⟩

/-- Dot product. -/
def dot (a b : Vec3) : ℚ := a.x * b.x + a.y * b.y + a.z * b.z

/-- Component-wise `≤`. -/
def le (a b : Vec3) : Prop := a.x ≤ b.x ∧ a.y ≤ b.y ∧ a.z ≤ b.z

/-- Component-wise `<`. -/
def lt (a b : Vec3) : Prop := a.x < b.x ∧ a.y < b.y ∧ a.z < b.z

instance (a b : Vec3) : Decidable (le a b) := by unfold le; infer_instance

instance (a b : Vec3) : Decidable (lt a b) := by unfold lt; infer_instance

/-- Squared Euclidean distance between two points (`nalgebra_glm::distance`
squared, kept in `ℚ`; the square root is taken in `ℝ` where needed). -/
def distSq (a b : Vec3) : ℚ :=
  (a.x - b.x) ^ 2 + (a.y - b.y) ^ 2 + (a.z - b.z) ^ 2

end Vec3

/-- `AABB` from `src/engine/aabb.rs`: min/max corners. -/
structure AABB where
  min : Vec3
  max : Vec3
deriving DecidableEq, Repr

/-- `Sphere` from `src/engine/sphere.rs`. -/
structure Sphere where
  center : Vec3
  radius : ℚ
deriving DecidableEq, Repr

/-- Modelled from the spec: the `Ray` type (`src/engine/ray.rs` is absent from
the sources; §2 of the spec lists `Ray` among the small geometric helper
types, and `AABB::raycast` reads exactly an `origin` point and a `dir`
direction vector from it). -/
structure Ray where
  origin : Vec3
  dir : Vec3
deriving DecidableEq, Repr

/-- `Plane` from `src/engine/plane.rs` (only the fields; plane construction
involves normalisation, which no claim needs). -/
structure Plane where
  normal : Vec3
  dist : ℚ
deriving DecidableEq, Repr

/-- `Frustrum` from `src/engine/frustrum.rs`: the queries consult only its
six planes; the corners are carried but unused by the BVH. -/
structure Frustrum where
  corners : List Vec3
  planes : List Plane
deriving DecidableEq, Repr

namespace AABB

/-- `AABB::new()`: the deliberately inverted box (identity for union).
`f32::MAX` / `f32::MIN` are modelled by `±(2^128)`, above/below every value
occurring in any scenario. -/
def new : AABB :=
  ⟨⟨2 ^ 128, 2 ^ 128, 2 ^ 128⟩, ⟨-(2 ^ 128), -(2 ^ 128), -(2 ^ 128)⟩⟩

/-- `AABB::from_min_max`. -/
def from_min_max (mn mx : Vec3) : AABB := ⟨mn, mx⟩

/-- `AABB::union`: component-wise min of mins, max of maxes. -/
def union (a b : AABB) : AABB :=
  from_min_max (Vec3.min2 a.min b.min) (Vec3.max2 a.max b.max)

/-- `AABB::area`: `2*(dx*dy + dy*dz + dz*dx)` for `d = max - min`. -/
def area (a : AABB) : ℚ :=
  let d := Vec3.sub a.max a.min
  2 * (d.x * d.y + d.y * d.z + d.z * d.x)

/-- `AABB::within_sphere`: squared-distance test against the squared radius,
subtracting the per-axis clamped distances. -/
def within_sphere (a : AABB) (s : Sphere) : Bool :=
  let r0 := s.radius ^ 2
  let r1 := if s.center.x < a.min.x then r0 - (s.center.x - a.min.x) ^ 2 else r0
  let r2 := if s.center.x > a.max.x then r1 - (s.center.x - a.max.x) ^ 2 else r1
  let r3 := if s.center.y < a.min.y then r2 - (s.center.y - a.min.y) ^ 2 else r2
  let r4 := if s.center.y > a.max.y then r3 - (s.center.y - a.max.y) ^ 2 else r3
  let r5 := if s.center.z < a.min.z then r4 - (s.center.z - a.min.z) ^ 2 else r4
  let r6 := if s.center.z > a.max.z then r5 - (s.center.z - a.max.z) ^ 2 else r5
  decide (r6 > 0)

/-- `AABB::intersects`: separating-axis test; touching counts as intersecting. -/
def intersects (a other : AABB) : Bool :=
  if a.max.x < other.min.x ∨ a.min.x > other.max.x then false
  else if a.max.y < other.min.y ∨ a.min.y > other.max.y then false
  else if a.max.z < other.min.z ∨ a.min.z > other.max.z then false
  else true

/-- `AABB::contains`: closed containment of `other` in `a` on all axes. -/
def contains (a other : AABB) : Bool :=
  decide (a.min.x ≤ other.min.x) && decide (a.min.y ≤ other.min.y) &&
  decide (a.min.z ≤ other.min.z) && decide (other.max.x ≤ a.max.x) &&
  decide (other.max.y ≤ a.max.y) && decide (other.max.z ≤ a.max.z)

/-- `AABB::contains_point`, exactly as written in the source (note the
`max ≤ point` comparisons). -/
def contains_point (a : AABB) (point : Vec3) : Bool :=
  decide (a.min.x ≤ point.x) && decide (a.min.y ≤ point.y) &&
  decide (a.min.z ≤ point.z) && decide (a.max.x ≤ point.x) &&
  decide (a.max.y ≤ point.y) && decide (a.max.z ≤ point.z)

/-- `AABB::center`. -/
def center (a : AABB) : Vec3 := Vec3.smul (1 / 2) (Vec3.add a.max a.min)

end AABB

/-! ## Extended scalars for the slab ray test

`AABB::raycast` computes `1.0 / dir` component-wise; a zero component yields
an IEEE signed infinity (positive, since the literal zeros in play are
`+0.0`), and subsequent products of a nonzero finite value with an infinity
stay infinite while `0 * ∞ = NaN`.  Rust's `f32::min`/`f32::max` return the
other operand when one argument is NaN, and all comparisons with NaN are
false. -/

/-- Extended scalar: finite rational, `+∞`, `-∞`, or NaN. -/
inductive EF where
  | fin : ℚ → EF
  | pinf : EF
  | ninf : EF
  | nan : EF
deriving DecidableEq, Repr

namespace EF

/-- `1.0 / q` for a finite `f32` value `q` (a `+0.0` divisor gives `+∞`). -/
def inv (q : ℚ) : EF := if q = 0 then pinf else fin (1 / q)

/-- Product of a finite value with an extended value. -/
def mulFin (q : ℚ) : EF → EF
  | fin r => fin (q * r)
  | pinf => if q > 0 then pinf else if q < 0 then ninf else nan
  | ninf => if q > 0 then ninf else if q < 0 then pinf else nan
  | nan => nan

/-- `a ≤ b` on extended values; false whenever NaN is involved. -/
def le : EF → EF → Bool
  | nan, _ => false
  | _, nan => false
  | ninf, _ => true
  | _, pinf => true
  | pinf, ninf => false
  | pinf, fin _ => false
  | fin _, ninf => false
  | fin q, fin r => decide (q ≤ r)

/-- Rust `f32::min`: NaN-ignoring minimum. -/
def fmin : EF → EF → EF
  | nan, b => b
  | a, nan => a
  | ninf, _ => ninf
  | _, ninf => ninf
  | pinf, b => b
  | a, pinf => a
  | fin q, fin r => fin (min q r)

/-- Rust `f32::max`: NaN-ignoring maximum. -/
def fmax : EF → EF → EF
  | nan, b => b
  | a, nan => a
  | pinf, _ => pinf
  | _, pinf => pinf
  | ninf, b => b
  | a, ninf => a
  | fin q, fin r => fin (max q r)

end EF

namespace AABB

/-- `AABB::raycast`: the slab method, with the division and the interval
arithmetic carried out in extended scalars exactly as `f32` would. -/
def raycast (b : AABB) (r : Ray) : Bool :=
  let invx := EF.inv r.dir.x
  let invy := EF.inv r.dir.y
  let invz := EF.inv r.dir.z
  let tx1 := EF.mulFin (b.min.x - r.origin.x) invx
  let tx2 := EF.mulFin (b.max.x - r.origin.x) invx
  let tmin0 := EF.fmin tx1 tx2
  let tmax0 := EF.fmax tx1 tx2
  let ty1 := EF.mulFin (b.min.y - r.origin.y) invy
  let ty2 := EF.mulFin (b.max.y - r.origin.y) invy
  let tmin1 := EF.fmax tmin0 (EF.fmin ty1 ty2)
  let tmax1 := EF.fmin tmax0 (EF.fmax ty1 ty2)
  let tz1 := EF.mulFin (b.min.z - r.origin.z) invz
  let tz2 := EF.mulFin (b.max.z - r.origin.z) invz
  let tmin2 := EF.fmax tmin1 (EF.fmin tz1 tz2)
  let tmax2 := EF.fmin tmax1 (EF.fmax tz1 tz2)
  EF.le tmin2 tmax2 && EF.le (EF.fin 0) tmax2

end AABB

/-! ## The BVH tree (`src/engine/bvh.rs`) -/

/-- `INVALID_BVH_NODE_ID = !0u32`. -/
def INVALID_BVH_NODE_ID : Nat := 4294967295

/-- `BVHNode<Object>`. -/
structure BVHNode (O : Type) where
  volume : AABB
  left : Nat
  right : Nat
  parent_id : Nat
  object : Option O
  height : Int
deriving DecidableEq, Repr

/-- `BVHNode::is_leaf`: a node is a leaf iff `left == INVALID`. -/
def BVHNode.is_leaf {O : Type} (n : BVHNode O) : Bool :=
  n.left == INVALID_BVH_NODE_ID

/-- `BVH<Object>`: node arena, root id, and the random generator modelled as
the stream of booleans `sampled x < 0.5`, one consumed per internal-node
creation. -/
structure BVH (O : Type) where
  nodes : List (BVHNode O)
  root_id : Nat
  rng : List Bool
deriving DecidableEq, Repr

namespace BVH

variable {O : Type}

/-- `BVH::new()` (the entropy-seeded generator becomes an arbitrary stream). -/
def new (rng : List Bool) : BVH O := ⟨[], INVALID_BVH_NODE_ID, rng⟩

/-- `AABB_EXTENSION = 0.1`. -/
def AABB_EXTENSION : ℚ := 1 / 10

/-- `AABB_MULTIPLIER = 2.0`. -/
def AABB_MULTIPLIER : ℚ := 2

/-- `node_at`: arena indexing; `none` models the Rust out-of-bounds panic
(also for `id = INVALID`, whose `usize` value is far past any live arena). -/
def nodeAt (s : BVH O) (id : Nat) : Option (BVHNode O) := s.nodes[id]?

/-- Update the node at `id` with `f`; `none` models the out-of-bounds panic
of `node_at_mut`. -/
def updAt (s : BVH O) (id : Nat) (f : BVHNode O → BVHNode O) : Option (BVH O) :=
  (s.nodes[id]?).map fun n => { s with nodes := s.nodes.set id (f n) }

/-- `get_left`. -/
def getLeft (s : BVH O) (id : Nat) : Option Nat := (nodeAt s id).map (·.left)

/-- `get_right`. -/
def getRight (s : BVH O) (id : Nat) : Option Nat := (nodeAt s id).map (·.right)

/-- `get_parent_id`. -/
def getParent (s : BVH O) (id : Nat) : Option Nat :=
  (nodeAt s id).map (·.parent_id)

/-- `get_volume`. -/
def getVolume (s : BVH O) (id : Nat) : Option AABB :=
  (nodeAt s id).map (·.volume)

/-- `get_height`. -/
def getHeight (s : BVH O) (id : Nat) : Option Int :=
  (nodeAt s id).map (·.height)

/-- `set_left`. -/
def setLeft (s : BVH O) (id : Nat) (l : Nat) : Option (BVH O) :=
  updAt s id fun n => { n with left := l }

/-- `set_right`. -/
def setRight (s : BVH O) (id : Nat) (r : Nat) : Option (BVH O) :=
  updAt s id fun n => { n with right := r }

/-- `set_parent`. -/
def setParent (s : BVH O) (id : Nat) (p : Nat) : Option (BVH O) :=
  updAt s id fun n => { n with parent_id := p }

/-- `set_volume`. -/
def setVolume (s : BVH O) (id : Nat) (v : AABB) : Option (BVH O) :=
  updAt s id fun n => { n with volume := v }

/-- `allocate_node`: push a fresh leaf; becomes root when the tree was empty. -/
def allocateNode (s : BVH O) (object : O) (aabb : AABB) : BVH O × Nat :=
  let idx := s.nodes.length
  let nd : BVHNode O :=
    ⟨aabb, INVALID_BVH_NODE_ID, INVALID_BVH_NODE_ID, INVALID_BVH_NODE_ID,
      some object, 0⟩
  (⟨s.nodes ++ [nd],
    if s.root_id = INVALID_BVH_NODE_ID then idx else s.root_id, s.rng⟩, idx)

/-- `new_internal_node`: consumes one random draw to decide the child order. -/
def newInternalNode (s : BVH O) (parent : Nat) (height : Int)
    (leftId rightId : Nat) : BVH O × Nat :=
  let idx := s.nodes.length
  let xLtHalf := s.rng.headD false
  let nd : BVHNode O :=
    ⟨AABB.new, if xLtHalf then leftId else rightId,
      if xLtHalf then rightId else leftId, parent, none, height⟩
  (⟨s.nodes ++ [nd], s.root_id, s.rng.tail⟩, idx)

/-- `adjust_bounds`: walk up from `index`, recomputing each node's volume as
the union of its children's volumes; the `assert_ne!` checks become `none`.
The fuel bound models non-termination of the Rust loop on a cyclic parent
chain; every run in this file terminates well inside its fuel. -/
def adjustBounds (s : BVH O) : Nat → Nat → Option (BVH O)
  | 0, _ => none
  | fuel + 1, index =>
    if index = INVALID_BVH_NODE_ID then some s
    else do
      let left ← getLeft s index
      let right ← getRight s index
      if left = INVALID_BVH_NODE_ID then none
      else if right = INVALID_BVH_NODE_ID then none
      else do
        let leftVolume ← getVolume s left
        let rightVolume ← getVolume s right
        let s' ← setVolume s index (leftVolume.union rightVolume)
        let parent ← getParent s' index
        adjustBounds s' fuel parent

/-- The sibling-search loop of `insert_leaf`: descend from `index` by the
surface-area cost heuristic until a leaf is reached or creating a new parent
at the current node is cheaper than descending. -/
def bestSibling (s : BVH O) (aabb : AABB) : Nat → Nat → Option Nat
  | 0, _ => none
  | fuel + 1, index => do
    let nd ← nodeAt s index
    if nd.left = INVALID_BVH_NODE_ID then some index
    else do
      let lnd ← nodeAt s nd.left
      let rnd ← nodeAt s nd.right
      let area := nd.volume.area
      let combinedAabb := nd.volume.union aabb
      let combinedArea := combinedAabb.area
      let cost := 2 * combinedArea
      let inheritanceCost := 2 * (combinedArea - area)
      let leftCost :=
        (if lnd.left = INVALID_BVH_NODE_ID then (aabb.union lnd.volume).area
         else (aabb.union lnd.volume).area - lnd.volume.area) + inheritanceCost
      let rightCost :=
        (if rnd.left = INVALID_BVH_NODE_ID then (aabb.union rnd.volume).area
         else (aabb.union rnd.volume).area - rnd.volume.area) + inheritanceCost
      if cost < leftCost ∧ cost < rightCost then some index
      else bestSibling s aabb fuel (if leftCost < rightCost then nd.left else nd.right)

/-- `insert_leaf` (written with explicit `Option.bind`, the exact
desugaring of the panic-propagating sequence of statements). -/
def insertLeaf (s : BVH O) (newNode : Nat) : Option (BVH O) :=
  if newNode = s.root_id then some s
  else
    (getVolume s newNode).bind fun aabb =>
    (bestSibling s aabb (s.nodes.length + 1) s.root_id).bind fun best =>
    (getParent s best).bind fun oldParent =>
    (getHeight s best).bind fun bestHeight =>
    let p := newInternalNode s oldParent (bestHeight + 1) newNode best
    (if oldParent ≠ INVALID_BVH_NODE_ID then
        (getLeft p.1 oldParent).bind fun opLeft =>
        if opLeft = best then setLeft p.1 oldParent p.2
        else
          (getRight p.1 oldParent).bind fun opRight =>
          if opRight = best then setRight p.1 oldParent p.2
          else none
      else some { p.1 with root_id := p.2 }).bind fun s2 =>
    (setParent s2 best p.2).bind fun s3 =>
    (setParent s3 newNode p.2).bind fun s4 =>
    adjustBounds s4 (s4.nodes.length + 1) p.2

/-- `remove_leaf` (written with explicit `Option.bind`, the exact
desugaring of the panic-propagating sequence of statements). -/
def removeLeaf (s : BVH O) (leaf : Nat) : Option (BVH O) :=
  if leaf = s.root_id then some { s with root_id := INVALID_BVH_NODE_ID }
  else
    (getParent s leaf).bind fun parent =>
    (getParent s parent).bind fun grandParent =>
    (getLeft s parent).bind fun parentLeft =>
    (if parentLeft = leaf then getRight s parent
      else some parentLeft).bind fun sibling =>
    if grandParent ≠ INVALID_BVH_NODE_ID then
      (getLeft s grandParent).bind fun gpLeft =>
      (if gpLeft = parent then setLeft s grandParent sibling
        else setRight s grandParent sibling).bind fun s1 =>
      (setParent s1 sibling grandParent).bind fun s2 =>
      adjustBounds s2 (s2.nodes.length + 1) grandParent
    else
      setParent { s with root_id := sibling } leaf INVALID_BVH_NODE_ID

/-- `insert`: allocate a leaf, fatten its box by `AABB_EXTENSION`, insert it. -/
def insert (s : BVH O) (object : O) (aabb : AABB) : Option (BVH O × Nat) := do
  let (s0, proxyId) := allocateNode s object aabb
  let r : Vec3 := ⟨AABB_EXTENSION, AABB_EXTENSION, AABB_EXTENSION⟩
  let oldAabb ← getVolume s0 proxyId
  let newAabb : AABB := ⟨Vec3.sub oldAabb.min r, Vec3.add oldAabb.max r⟩
  let s1 ← setVolume s0 proxyId newAabb
  let s2 ← insertLeaf s1 proxyId
  some (s2, proxyId)

/-- `remove`: the `assert!` bounds/leaf checks become `none`. -/
def remove (s : BVH O) (nodeId : Nat) : Option (BVH O) := do
  let nd ← nodeAt s nodeId
  if nd.left = INVALID_BVH_NODE_ID then removeLeaf s nodeId else none

/-- The fattened-and-displacement-extended volume computed inline by
`move_obj` (lines 104–131): extend by `AABB_EXTENSION` on all faces, then
push the min face by `2 * displacement` on each axis where the displacement
is negative and the max face where it is non-negative. -/
def movedVolume (aabb : AABB) (displacement : Vec3) : AABB :=
  let r : Vec3 := ⟨AABB_EXTENSION, AABB_EXTENSION, AABB_EXTENSION⟩
  let a0 : AABB := ⟨Vec3.sub aabb.min r, Vec3.add aabb.max r⟩
  let d := Vec3.smul AABB_MULTIPLIER displacement
  let a1 : AABB :=
    if d.x < 0 then ⟨⟨a0.min.x + d.x, a0.min.y, a0.min.z⟩, a0.max⟩
    else ⟨a0.min, ⟨a0.max.x + d.x, a0.max.y, a0.max.z⟩⟩
  let a2 : AABB :=
    if d.y < 0 then ⟨⟨a1.min.x, a1.min.y + d.y, a1.min.z⟩, a1.max⟩
    else ⟨a1.min, ⟨a1.max.x, a1.max.y + d.y, a1.max.z⟩⟩
  if d.z < 0 then ⟨⟨a2.min.x, a2.min.y, a2.min.z + d.z⟩, a2.max⟩
  else ⟨a2.min, ⟨a2.max.x, a2.max.y, a2.max.z + d.z⟩⟩

/-- `move_obj`. -/
def moveObj (s : BVH O) (proxyId : Nat) (aabb : AABB) (displacement : Vec3) :
    Option (BVH O × Bool) := do
  let nd ← nodeAt s proxyId
  if nd.left ≠ INVALID_BVH_NODE_ID then none
  else if nd.volume.intersects aabb then some (s, false)
  else do
    let s1 ← removeLeaf s proxyId
    let s2 ← setVolume s1 proxyId (movedVolume aabb displacement)
    let s3 ← insertLeaf s2 proxyId
    some (s3, true)

/-! ### Query iterators

All three iterators share one stack-driven traversal (`BVHSphereIterator`,
`BVHRayIterator`, `BVHFrustrumIterator` have textually identical `next`
implementations, differing only in the volume predicate).  `searchStack`
exhausts that traversal into the list of yielded payloads; the head of the
list-stack is the `Vec` top (children are pushed left-then-right, so the
right child is popped first). -/

/-- Exhaust the shared iterator loop: pop a node; if its volume fails `keep`,
prune; otherwise push the children and yield the payload if present. -/
def searchStack (s : BVH O) (keep : AABB → Bool) :
    Nat → List Nat → Option (List O)
  | 0, _ => none
  | _, [] => some []
  | fuel + 1, currentId :: rest => do
    let nd ← nodeAt s currentId
    if !(keep nd.volume) then searchStack s keep fuel rest
    else
      let st1 := if nd.left ≠ INVALID_BVH_NODE_ID then nd.left :: rest else rest
      let st2 := if nd.right ≠ INVALID_BVH_NODE_ID then nd.right :: st1 else st1
      match nd.object with
      | some object => (searchStack s keep fuel st2).map (object :: ·)
      | none => searchStack s keep fuel st2

/-- The initial stack of every iterator: the root if the tree is non-empty. -/
def initialStack (s : BVH O) : List Nat :=
  if s.root_id ≠ INVALID_BVH_NODE_ID then [s.root_id] else []

/-- `iter_sphere`, exhausted into a list. -/
def iterSphereList (s : BVH O) (sphere : Sphere) (fuel : Nat) :
    Option (List O) :=
  searchStack s (fun v => v.within_sphere sphere) fuel (initialStack s)

/-- `iter_ray`, exhausted into a list. -/
def iterRayList (s : BVH O) (ray : Ray) (fuel : Nat) : Option (List O) :=
  searchStack s (fun v => v.raycast ray) fuel (initialStack s)

end BVH

/-! ### The frustrum test

`AABB::within_frustrum` falls back, when a plane's p-vertex test fails, to
testing the box's bounding sphere against the frustrum.  The bounding
sphere's radius is `distance(center, min)`, an (irrational) square root, so
this corner of the geometry is embedded over `ℝ`; the comparison against
zero is decided classically.  No claim evaluates these functions — they are
needed only for the determinism/read-only claim about `iter_frustrum`. -/

/-- Comparison of reals as a (classically decided) boolean, standing in for
the `f32` comparison in the bounding-sphere fallback. -/
noncomputable def rblt (a b : ℝ) : Bool := @decide (a < b) (Classical.propDecidable _)

namespace AABB

/-- `get_furthest_corner`: the p-vertex of the box along a plane normal. -/
def get_furthest_corner (a : AABB) (p : Plane) : Vec3 :=
  ⟨if p.normal.x > 0 then a.max.x else a.min.x,
   if p.normal.y > 0 then a.max.y else a.min.y,
   if p.normal.z > 0 then a.max.z else a.min.z⟩

/-- The radius of `AABB::bounding_sphere`: distance from the center to the
`min` corner. -/
noncomputable def bounding_sphere_radius (a : AABB) : ℝ :=
  Real.sqrt ((Vec3.distSq a.center a.min : ℚ) : ℝ)

/-- `Sphere::within_frustrum` applied to the bounding sphere (center a
rational point, radius a real): the plane loop with early `false` return. -/
noncomputable def sphere_within_frustrum (center : Vec3) (radius : ℝ) :
    List Plane → Bool
  | [] => true
  | p :: rest =>
    if rblt (((Vec3.dot p.normal center + p.dist : ℚ) : ℝ) + radius) 0 then false
    else sphere_within_frustrum center radius rest

/-- The plane loop of `AABB::within_frustrum`: on the first plane whose
p-vertex test fails, answer with the bounding-sphere fallback. -/
noncomputable def within_frustrum_loop (a : AABB) (fr : Frustrum) :
    List Plane → Bool
  | [] => true
  | p :: rest =>
    let vmax := a.get_furthest_corner p
    let value := Vec3.dot p.normal vmax + p.dist
    if value < 0 then
      sphere_within_frustrum a.center a.bounding_sphere_radius fr.planes
    else within_frustrum_loop a fr rest

/-- `AABB::within_frustrum` (the `debug` flag only controls a `println!`). -/
noncomputable def within_frustrum (a : AABB) (fr : Frustrum) (_debug : Bool) :
    Bool :=
  within_frustrum_loop a fr fr.planes

end AABB

namespace BVH

variable {O : Type}

/-- `iter_frustrum`, exhausted into a list. -/
noncomputable def iterFrustrumList (s : BVH O) (fr : Frustrum) (debug : Bool)
    (fuel : Nat) : Option (List O) :=
  searchStack s (fun v => v.within_frustrum fr debug) fuel (initialStack s)

end BVH

/-! ## The spec's reading of `move`'s predictive expansion (claim C6)

The spec says the reinserted leaf is "expanded *opposite* to the
displacement direction by `2 * displacement`".  The following definition
follows those words (for each axis, the face on the side opposite the
motion is pushed outward by `2 * |displacement|`); it is compared against
the source's `movedVolume`, which pushes the face on the side *of* the
motion. -/

/-- The volume the spec's words predict for a moved leaf: fatten by
`AABB_EXTENSION` on all faces, then push the face opposite the motion
outward by `2 * displacement` on each axis. -/
def specMovedVolume (aabb : AABB) (displacement : Vec3) : AABB :=
  let r : Vec3 := ⟨BVH.AABB_EXTENSION, BVH.AABB_EXTENSION, BVH.AABB_EXTENSION⟩
  let a0 : AABB := ⟨Vec3.sub aabb.min r, Vec3.add aabb.max r⟩
  let d := Vec3.smul BVH.AABB_MULTIPLIER displacement
  let a1 : AABB :=
    if d.x < 0 then ⟨a0.min, ⟨a0.max.x - d.x, a0.max.y, a0.max.z⟩⟩
    else ⟨⟨a0.min.x - d.x, a0.min.y, a0.min.z⟩, a0.max⟩
  let a2 : AABB :=
    if d.y < 0 then ⟨a1.min, ⟨a1.max.x, a1.max.y - d.y, a1.max.z⟩⟩
    else ⟨⟨a1.min.x, a1.min.y - d.y, a1.min.z⟩, a1.max⟩
  if d.z < 0 then ⟨a2.min, ⟨a2.max.x, a2.max.y, a2.max.z - d.z⟩⟩
  else ⟨⟨a2.min.x, a2.min.y, a2.min.z - d.z⟩, a2.max⟩

/-! ## Concrete scenarios

All runs start from `BVH.new` with an explicit random stream.  Payloads are
natural numbers.  The boxes are chosen so that every comparison made by the
`f32` code at these inputs is sign-robust: exact rational evaluation and
`f32` evaluation take the same branches. -/

/-- Tight box of the first inserted object: `[(0,0,0),(1,1,1)]`. -/
def boxA : AABB := ⟨⟨0, 0, 0⟩, ⟨1, 1, 1⟩⟩

/-- Tight box of the second inserted object: `[(10,0,0),(11,1,1)]`. -/
def boxB : AABB := ⟨⟨10, 0, 0⟩, ⟨11, 1, 1⟩⟩

/-- Tight box of the third inserted object: `[(0,2,0),(1,3,1)]`. -/
def boxC : AABB := ⟨⟨0, 2, 0⟩, ⟨1, 3, 1⟩⟩

/-- Three inserts (payloads 1, 2, 3; leaf ids 0, 1, 3; internal nodes 2, 4):
the resulting shape is `2 { 4 { 0, 3 }, 1 }` with root 2. -/
def insert3 : Option (BVH Nat) := do
  let (s1, _) ← BVH.insert (BVH.new [false, false, false]) 1 boxA
  let (s2, _) ← BVH.insert s1 2 boxB
  let (s3, _) ← BVH.insert s2 3 boxC
  some s3

/-- A tight box that overlaps leaf 0's fattened box without being contained
in it. -/
def tightC1 : AABB := ⟨⟨1/2, 1/2, 1/2⟩, ⟨2, 2, 2⟩⟩

/-- One insert into an empty tree (payload 1, leaf id 0). -/
def insert1 : Option (BVH Nat × Nat) := BVH.insert (BVH.new []) 1 boxA

/-- The state after `insert1`, written out literally: a single leaf with the
fattened box `[-0.1, 1.1]³` as the root. -/
def stateC1 : BVH Nat :=
  ⟨[⟨⟨⟨-1/10, -1/10, -1/10⟩, ⟨11/10, 11/10, 11/10⟩⟩, INVALID_BVH_NODE_ID,
      INVALID_BVH_NODE_ID, INVALID_BVH_NODE_ID, some 1, 0⟩], 0, []⟩

/-- Insert one object, then `move` it to `tightC1` with zero displacement:
the new tight box escapes the stored fattened box but still intersects it. -/
def runC1 : Option (BVH Nat × Bool) := do
  let (s1, _) ← insert1
  BVH.moveObj s1 0 tightC1 ⟨0, 0, 0⟩

/-- The tight box `move` is asked to track in the C3 scenario:
`[(0,2,0),(1,3.5,1)]`, next to leaf 3's volume. -/
def boxM : AABB := ⟨⟨0, 2, 0⟩, ⟨1, 7/2, 1⟩⟩

/-- Three inserts, remove leaf 1, then `move` leaf 0 to `boxM`: the
stale parent pointer left by the root-promoting `remove_leaf` makes the
reinsertion splice happen beside the detached node 2, so the reachable
root 4 keeps its old volume while its child 0's volume has changed. -/
def runC3 : Option (BVH Nat) := do
  let s ← insert3
  let sa ← BVH.remove s 1
  let (sb, _) ← BVH.moveObj sa 0 boxM ⟨0, 0, 0⟩
  some sb

/-- Three inserts then removal of all three returned leaf ids (1, 3, 0). -/
def runC4 : Option (BVH Nat) := do
  let s ← insert3
  let sa ← BVH.remove s 1
  let sb ← BVH.remove sa 3
  BVH.remove sb 0

/-- Three inserts then removal of leaf ids 1 and 3; only leaf 0 (payload 1)
is still live, but the detached-yet-reachable leaf 3 remains in the tree. -/
def runC5 : Option (BVH Nat) := do
  let s ← insert3
  let sa ← BVH.remove s 1
  BVH.remove sa 3

/-- A sphere containing every box in the scenarios. -/
def bigSphere : Sphere := ⟨⟨0, 0, 0⟩, 100⟩

/-- Tight box for the C6 move, far from both inserted objects. -/
def tightC6 : AABB := ⟨⟨50, 0, 0⟩, ⟨51, 1, 1⟩⟩

/-- Displacement for the C6 move. -/
def dispC6 : Vec3 := ⟨1, 0, 0⟩

/-- The state after inserting payloads 1 and 2 with boxes `boxA`, `boxB`
from a fresh tree with random stream `[false, false]` (written out
literally; `stateC6_eq` below proves it equals the run). -/
def stateC6 : BVH Nat :=
  ⟨[⟨⟨⟨-1/10, -1/10, -1/10⟩, ⟨11/10, 11/10, 11/10⟩⟩, INVALID_BVH_NODE_ID,
      INVALID_BVH_NODE_ID, 2, some 1, 0⟩,
    ⟨⟨⟨99/10, -1/10, -1/10⟩, ⟨111/10, 11/10, 11/10⟩⟩, INVALID_BVH_NODE_ID,
      INVALID_BVH_NODE_ID, 2, some 2, 0⟩,
    ⟨⟨⟨-1/10, -1/10, -1/10⟩, ⟨111/10, 11/10, 11/10⟩⟩, 0, 1,
      INVALID_BVH_NODE_ID, none, 1⟩],
    2, [false]⟩

/-- Two inserts then a `move` of leaf 0 to `tightC6` with displacement
`(1,0,0)`: the move restructures and returns `true`. -/
def runC6 : Option (BVH Nat × Bool) := BVH.moveObj stateC6 0 tightC6 dispC6

/-- The state produced by the C6 move, written out literally (checked
against the run in the C6 witness). -/
def stateC6' : BVH Nat :=
  ⟨[⟨⟨⟨499/10, -1/10, -1/10⟩, ⟨531/10, 11/10, 11/10⟩⟩, INVALID_BVH_NODE_ID,
      INVALID_BVH_NODE_ID, 3, some 1, 0⟩,
    ⟨⟨⟨99/10, -1/10, -1/10⟩, ⟨111/10, 11/10, 11/10⟩⟩, INVALID_BVH_NODE_ID,
      INVALID_BVH_NODE_ID, 3, some 2, 0⟩,
    ⟨⟨⟨99/10, -1/10, -1/10⟩, ⟨531/10, 11/10, 11/10⟩⟩, 0, 3,
      INVALID_BVH_NODE_ID, none, 1⟩,
    ⟨⟨⟨99/10, -1/10, -1/10⟩, ⟨531/10, 11/10, 11/10⟩⟩, 1, 0, 2, none, 1⟩],
    1, []⟩

/-- Two inserts then removal of leaf 0, whose parent (node 2) is the root:
the sibling leaf 1 is promoted to root. -/
def runC8 : Option (BVH Nat) := do
  let (s1, _) ← BVH.insert (BVH.new [false]) 1 boxA
  let (s2, _) ← BVH.insert s1 2 boxB
  BVH.remove s2 0

/-- The ray of the spec's ray scenario that must hit `boxA`'s leaf. -/
def rayHit : Ray := ⟨⟨-5, 1/2, 1/2⟩, ⟨1, 0, 0⟩⟩

/-- The ray of the spec's ray scenario that must miss `boxA`'s leaf. -/
def rayMiss : Ray := ⟨⟨-5, 2, 2⟩, ⟨1, 0, 0⟩⟩

/-- `stateC6` with a different random stream (the arena and root agree). -/
def stateC10 : BVH Nat := { stateC6 with rng := [true, true] }

/-- An arbitrary frustrum value for instantiating the determinism claim. -/
def emptyFrustrum : Frustrum := ⟨[], []⟩

/-! ## Theorems -/

set_option maxRecDepth 2000

/-- Claim C1 (containment invariant) fails on the code: insert an object
with tight box `[(0,0,0),(1,1,1)]` (stored fattened box
`[-0.1,1.1]³`), then `move` it to the tight box `[(0.5,0.5,0.5),(2,2,2)]`
with zero displacement.  Because `move_obj` tests `intersects` rather than
`contains`, it returns `false` and leaves the stored box unchanged, and the
stored box does not contain the most recently supplied tight box. -/
theorem C1_containment_invariant_violated :
    runC1.map Prod.snd = some false ∧
    (runC1.bind fun p => BVH.getVolume p.1 0) =
      some ⟨⟨-1/10, -1/10, -1/10⟩, ⟨11/10, 11/10, 11/10⟩⟩ ∧
    AABB.contains ⟨⟨-1/10, -1/10, -1/10⟩, ⟨11/10, 11/10, 11/10⟩⟩ tightC1
      = false := by
  with_unfolding_all decide

/-- Claim C2 (move return semantics) fails on the code: at the same input
as C1 the stored fattened box does *not* contain the new tight box, yet
`move` returns `false` (with the tree unchanged), because the source tests
`intersects` where the claim requires `contains`. -/
theorem C2_move_return_semantics_violated :
    insert1 = some (stateC1, 0) ∧
    BVH.moveObj stateC1 0 tightC1 ⟨0, 0, 0⟩ = some (stateC1, false) ∧
    AABB.contains ⟨⟨-1/10, -1/10, -1/10⟩, ⟨11/10, 11/10, 11/10⟩⟩ tightC1
      = false := by
  refine ⟨?_, ?_, ?_⟩ <;> with_unfolding_all rfl

/-- Claim C3 (union invariant) fails on the code: after three inserts, one
remove and one re-inserting move, the reachable root (node 4) is an
internal node whose stored volume is not the union of its children's
volumes — the stale parent pointer left by `remove_leaf`'s root-promotion
branch routed the refit chain through a detached node. -/
theorem C3_union_invariant_violated :
    (runC3.map fun s => s.root_id) = some 4 ∧
    (runC3.bind fun s => do
        let n ← BVH.nodeAt s 4
        let lv ← BVH.getVolume s n.left
        let rv ← BVH.getVolume s n.right
        some (n.object, decide (n.volume = AABB.union lv rv))) =
      some (none, false) := by
  with_unfolding_all decide

/-- Claim C4 (round-trip) fails on the code: inserting three objects
(returned leaf ids 0, 1, 3) and removing all three (order 1, 3, 0) leaves
`root_id = 1`, not `INVALID`: the first removal promotes node 4 to root but
leaves `4.parent_id = 2` stale, so the second removal splices through the
detached node 2 and the third promotes the already-removed leaf 1. -/
theorem C4_roundtrip_violated :
    (runC4.map fun s => s.root_id) = some 1 ∧
    (1 : Nat) ≠ INVALID_BVH_NODE_ID := by
  with_unfolding_all decide

/-- Claim C5 (sphere query exactness) fails on the code: after three
inserts (payloads 1, 2, 3) and removal of leaf ids 1 and 3 (payloads 2 and
3), only payload 1 is live, yet exhausting `iter_sphere` with a sphere
containing everything yields `[3, 1]` — the removed leaf 3 is still
reachable from the (stale) root. -/
theorem C5_sphere_query_violated :
    (runC5.bind fun s => BVH.iterSphereList s bigSphere 100) = some [3, 1] ∧
    (runC5.bind fun s => (BVH.nodeAt s 3).map (·.object)) = some (some 3) := by
  with_unfolding_all decide

/-- Claim C6's stated direction is refuted: moving leaf 0 to tight box
`[(50,0,0),(51,1,1)]` with displacement `(1,0,0)` restructures (returns
`true`) and stores `[(49.9,-0.1,-0.1),(53.1,1.1,1.1)]` — the max-x face is
pushed by `2*1` *along* the motion — whereas the spec's words predict
`[(47.9,-0.1,-0.1),(51.1,1.1,1.1)]` (min-x face pushed, opposite the
motion). -/
theorem C6_expansion_direction_counterexample :
    runC6.map Prod.snd = some true ∧
    (runC6.bind fun p => BVH.getVolume p.1 0) =
      some ⟨⟨499/10, -1/10, -1/10⟩, ⟨531/10, 11/10, 11/10⟩⟩ ∧
    specMovedVolume tightC6 dispC6 ≠
      ⟨⟨499/10, -1/10, -1/10⟩, ⟨531/10, 11/10, 11/10⟩⟩ := by
  with_unfolding_all decide

/-- Claim C7 (ray scenario): with a single leaf of tight box
`[(0,0,0),(1,1,1)]`, the ray from `(-5,0.5,0.5)` along `(1,0,0)` is
yielded and the ray from `(-5,2,2)` is not — the slab test is evaluated
with the signed infinities produced by the zero y/z direction components. -/
theorem C7_ray_scenario :
    (insert1.bind fun p => BVH.iterRayList p.1 rayHit 10) = some [1] ∧
    (insert1.bind fun p => BVH.iterRayList p.1 rayMiss 10) = some [] := by
  with_unfolding_all decide

/-- Claim C8 (parent-pointer consistency) fails on the code: after two
inserts, removing leaf 0 (whose parent, node 2, is the root) promotes its
sibling leaf 1 to root, but `remove_leaf` clears the parent of the
*removed* leaf instead of the sibling, so the new root keeps
`parent_id = 2 ≠ INVALID`. -/
theorem C8_parent_pointer_violated :
    (runC8.map fun s => s.root_id) = some 1 ∧
    (runC8.bind fun s => BVH.getParent s 1) = some 2 ∧
    (2 : Nat) ≠ INVALID_BVH_NODE_ID := by
  with_unfolding_all decide

/-- Claim C9: `contains_point` returns `true` iff both the min corner and
the max corner are component-wise `≤` the point; consequently any point
strictly inside a box with positive extent on some axis is reported as not
contained. -/
theorem C9_contains_point_characterisation (b : AABB) (p : Vec3) :
    (AABB.contains_point b p = true ↔ Vec3.le b.min p ∧ Vec3.le b.max p) ∧
    ((b.min.x < b.max.x ∨ b.min.y < b.max.y ∨ b.min.z < b.max.z) →
      Vec3.lt b.min p → Vec3.lt p b.max → AABB.contains_point b p = false) := by
  constructor
  · simp only [AABB.contains_point, Vec3.le, Bool.and_eq_true, decide_eq_true_eq]
    tauto
  · intro _ _ hlt2
    have hx : decide (b.max.x ≤ p.x) = false :=
      decide_eq_false (not_le.mpr hlt2.1)
    simp [AABB.contains_point, hx]

/-- Witness for C9 at the box `[(0,0,0),(1,1,1)]` and its center. -/
theorem C9_contains_point_witness :
    AABB.contains_point boxA ⟨1/2, 1/2, 1/2⟩ = false :=
  (C9_contains_point_characterisation boxA ⟨1/2, 1/2, 1/2⟩).2
    (by with_unfolding_all decide) (by with_unfolding_all decide)
    (by with_unfolding_all decide)

/-- The shared iterator loop reads only the node arena: two states with
equal arenas traverse identically for any predicate, fuel and stack. -/
theorem searchStack_congr {O : Type} (s1 s2 : BVH O) (keep : AABB → Bool)
    (h : s1.nodes = s2.nodes) :
    ∀ (fuel : Nat) (stack : List Nat),
      BVH.searchStack s1 keep fuel stack = BVH.searchStack s2 keep fuel stack := by
  intro fuel
  induction fuel with
  | zero => intro stack; cases stack <;> rfl
  | succ fuel ih =>
    intro stack
    cases stack with
    | nil => rfl
    | cons currentId rest =>
      simp only [BVH.searchStack, BVH.nodeAt, h, ih]

/-- Claim C10: for fixed arena and root, exhausting `iter_sphere`,
`iter_ray` and `iter_frustrum` (any debug flag) gives identical payload
sequences regardless of the state of the random generator — queries are
pure functions of the tree structure (in this embedding they return only a
payload list, so they mutate nothing), and the generator is consulted only
by `new_internal_node` during insertion. -/
theorem C10_query_determinism {O : Type} (s1 s2 : BVH O)
    (hnodes : s1.nodes = s2.nodes) (hroot : s1.root_id = s2.root_id)
    (fuel : Nat) :
    (∀ sphere : Sphere,
      BVH.iterSphereList s1 sphere fuel = BVH.iterSphereList s2 sphere fuel) ∧
    (∀ ray : Ray,
      BVH.iterRayList s1 ray fuel = BVH.iterRayList s2 ray fuel) ∧
    ∀ (fr : Frustrum) (debug : Bool),
      BVH.iterFrustrumList s1 fr debug fuel =
        BVH.iterFrustrumList s2 fr debug fuel := by
  have hstack : BVH.initialStack s1 = BVH.initialStack s2 := by
    simp [BVH.initialStack, hroot]
  refine ⟨fun sphere => ?_, fun ray => ?_, fun fr debug => ?_⟩ <;>
    simp only [BVH.iterSphereList, BVH.iterRayList, BVH.iterFrustrumList,
      hstack] <;>
    exact searchStack_congr s1 s2 _ hnodes fuel _

/-- Witness for C10: the two-leaf state `stateC6` and the same state with a
different random stream give equal query results. -/
theorem C10_query_determinism_witness :
    BVH.iterSphereList stateC6 bigSphere 9 =
      BVH.iterSphereList stateC10 bigSphere 9 ∧
    BVH.iterRayList stateC6 rayHit 9 = BVH.iterRayList stateC10 rayHit 9 ∧
    BVH.iterFrustrumList stateC6 emptyFrustrum true 9 =
      BVH.iterFrustrumList stateC10 emptyFrustrum true 9 :=
  ⟨(C10_query_determinism stateC6 stateC10 rfl rfl 9).1 bigSphere,
   (C10_query_determinism stateC6 stateC10 rfl rfl 9).2.1 rayHit,
   (C10_query_determinism stateC6 stateC10 rfl rfl 9).2.2 emptyFrustrum true⟩

/-! ### Preservation lemmas for the amended C6

`move_obj`'s restructuring path sets the proxy's volume and then reinserts
the leaf; the following lemmas show that no later write of `remove_leaf` /
`insert_leaf` / `adjust_bounds` can touch a true leaf's volume in a run
that does not panic: every volume write is guarded by the
`assert_ne!(left/right, INVALID)` checks, and the two link writes that
could hit the proxy fail their own assertions first. -/

theorem updAt_eq_some {O : Type} {s s' : BVH O} {id : Nat}
    {f : BVHNode O → BVHNode O} (h : BVH.updAt s id f = some s') :
    ∃ n, s.nodes[id]? = some n ∧ s'.nodes = s.nodes.set id (f n) ∧
      s'.root_id = s.root_id ∧ s'.rng = s.rng := by
  unfold BVH.updAt at h
  obtain ⟨n, hn, hs'⟩ := Option.map_eq_some'.mp h
  exact ⟨n, hn, by rw [← hs'], by rw [← hs'], by rw [← hs']⟩

theorem updAt_get_ne {O : Type} {s s' : BVH O} {id : Nat}
    {f : BVHNode O → BVHNode O} (h : BVH.updAt s id f = some s') {j : Nat}
    (hne : id ≠ j) : s'.nodes[j]? = s.nodes[j]? := by
  obtain ⟨n, _, hnodes, _, _⟩ := updAt_eq_some h
  rw [hnodes]
  exact List.getElem?_set_ne hne

theorem updAt_get_eq {O : Type} {s s' : BVH O} {id : Nat}
    {f : BVHNode O → BVHNode O} (h : BVH.updAt s id f = some s') :
    ∃ n, s.nodes[id]? = some n ∧ s'.nodes[id]? = some (f n) := by
  obtain ⟨n, hn, hnodes, _, _⟩ := updAt_eq_some h
  refine ⟨n, hn, ?_⟩
  rw [hnodes]
  exact List.getElem?_set_eq_of_lt _ (List.getElem?_eq_some.mp hn).1

theorem updAt_length {O : Type} {s s' : BVH O} {id : Nat}
    {f : BVHNode O → BVHNode O} (h : BVH.updAt s id f = some s') :
    s'.nodes.length = s.nodes.length := by
  obtain ⟨n, _, hnodes, _, _⟩ := updAt_eq_some h
  rw [hnodes, List.length_set]

/-- A non-panicking `adjust_bounds` never changes a node whose `left` is
`INVALID` (its volume writes are all guarded by the child assertions), and
it preserves the arena length and the root. -/
theorem adjustBounds_preserves {O : Type} :
    ∀ (fuel : Nat) (s : BVH O) (index : Nat) (s' : BVH O),
      BVH.adjustBounds s fuel index = some s' →
      ∀ (j : Nat) (nd : BVHNode O), s.nodes[j]? = some nd →
        nd.left = INVALID_BVH_NODE_ID →
        s'.nodes[j]? = some nd ∧ s'.nodes.length = s.nodes.length ∧
          s'.root_id = s.root_id := by
  intro fuel
  induction fuel with
  | zero => intro s index s' h; exact absurd h (by simp [BVH.adjustBounds])
  | succ fuel ih =>
    intro s index s' h j nd hj hleft
    rw [BVH.adjustBounds] at h
    by_cases hidx : index = INVALID_BVH_NODE_ID
    · rw [if_pos hidx] at h
      cases h
      exact ⟨hj, rfl, rfl⟩
    · rw [if_neg hidx] at h
      obtain ⟨left, hL, h⟩ := Option.bind_eq_some.mp h
      obtain ⟨right, hR, h⟩ := Option.bind_eq_some.mp h
      by_cases hL0 : left = INVALID_BVH_NODE_ID
      · rw [if_pos hL0] at h; exact absurd h (by simp)
      · rw [if_neg hL0] at h
        by_cases hR0 : right = INVALID_BVH_NODE_ID
        · rw [if_pos hR0] at h; exact absurd h (by simp)
        · rw [if_neg hR0] at h
          obtain ⟨lv, hlv, h⟩ := Option.bind_eq_some.mp h
          obtain ⟨rv, hrv, h⟩ := Option.bind_eq_some.mp h
          obtain ⟨s1, hset, h⟩ := Option.bind_eq_some.mp h
          obtain ⟨parent, hpar, h⟩ := Option.bind_eq_some.mp h
          -- the written node is `index`, and `j ≠ index` since node `j`
          -- has an INVALID left child while `index` passed the assertion
          have hij : index ≠ j := by
            intro he
            obtain ⟨ni, hni, hni2⟩ := Option.map_eq_some'.mp hL
            rw [he] at hni
            rw [BVH.nodeAt] at hni
            rw [hj] at hni
            cases hni
            exact hL0 (by rw [← hni2, hleft])
          have h1j : s1.nodes[j]? = some nd := by
            rw [updAt_get_ne hset hij]; exact hj
          obtain ⟨hkeep, hlen, hroot⟩ := ih s1 parent s' h j nd h1j hleft
          refine ⟨hkeep, ?_, ?_⟩
          · rw [hlen, updAt_length hset]
          · rw [hroot, (updAt_eq_some hset).choose_spec.2.2.1]

/-- A successful `adjust_bounds` starting at a valid index implies that
index passed both child assertions. -/
theorem adjustBounds_guards {O : Type} {fuel : Nat} {s : BVH O} {index : Nat}
    {s' : BVH O} (h : BVH.adjustBounds s fuel index = some s')
    (hidx : index ≠ INVALID_BVH_NODE_ID) :
    ∃ l r, BVH.getLeft s index = some l ∧ BVH.getRight s index = some r ∧
      l ≠ INVALID_BVH_NODE_ID ∧ r ≠ INVALID_BVH_NODE_ID := by
  cases fuel with
  | zero => exact absurd h (by simp [BVH.adjustBounds])
  | succ fuel =>
    rw [BVH.adjustBounds, if_neg hidx] at h
    obtain ⟨left, hL, h⟩ := Option.bind_eq_some.mp h
    obtain ⟨right, hR, h⟩ := Option.bind_eq_some.mp h
    by_cases hL0 : left = INVALID_BVH_NODE_ID
    · rw [if_pos hL0] at h; exact absurd h (by simp)
    · rw [if_neg hL0] at h
      by_cases hR0 : right = INVALID_BVH_NODE_ID
      · rw [if_pos hR0] at h; exact absurd h (by simp)
      · exact ⟨left, right, hL, hR, hL0, hR0⟩

/-- Reading `get_left` against a known node. -/
theorem getLeft_eq {O : Type} {s : BVH O} {j l : Nat}
    (h : BVH.getLeft s j = some l) {m : BVHNode O}
    (hm : s.nodes[j]? = some m) : l = m.left := by
  rw [BVH.getLeft, BVH.nodeAt, hm] at h
  simp only [Option.map_some', Option.some.injEq] at h
  exact h.symm

/-- Reading `get_right` against a known node. -/
theorem getRight_eq {O : Type} {s : BVH O} {j r : Nat}
    (h : BVH.getRight s j = some r) {m : BVHNode O}
    (hm : s.nodes[j]? = some m) : r = m.right := by
  rw [BVH.getRight, BVH.nodeAt, hm] at h
  simp only [Option.map_some', Option.some.injEq] at h
  exact h.symm

/-- A non-panicking `remove_leaf` preserves a true leaf (both children
`INVALID`) up to its parent pointer: its volume and both child links
survive, and the arena length is unchanged. -/
theorem removeLeaf_preserves {O : Type} {s : BVH O} {leaf : Nat} {s' : BVH O}
    (h : BVH.removeLeaf s leaf = some s') {j : Nat} {nd : BVHNode O}
    (hj : s.nodes[j]? = some nd) (hl : nd.left = INVALID_BVH_NODE_ID)
    (hr : nd.right = INVALID_BVH_NODE_ID) :
    ∃ nd', s'.nodes[j]? = some nd' ∧ nd'.left = INVALID_BVH_NODE_ID ∧
      nd'.right = INVALID_BVH_NODE_ID ∧ nd'.volume = nd.volume ∧
      s'.nodes.length = s.nodes.length := by
  rw [BVH.removeLeaf] at h
  by_cases hroot : leaf = s.root_id
  · rw [if_pos hroot] at h
    cases h
    exact ⟨nd, hj, hl, hr, rfl, rfl⟩
  · rw [if_neg hroot] at h
    obtain ⟨parent, hpar, h⟩ := Option.bind_eq_some.mp h
    obtain ⟨gp, hgp, h⟩ := Option.bind_eq_some.mp h
    obtain ⟨pl, hpl, h⟩ := Option.bind_eq_some.mp h
    obtain ⟨sib, hsib, h⟩ := Option.bind_eq_some.mp h
    by_cases hgpi : gp ≠ INVALID_BVH_NODE_ID
    · rw [if_pos hgpi] at h
      obtain ⟨gpl, hgpl, h⟩ := Option.bind_eq_some.mp h
      obtain ⟨s1, hs1, h⟩ := Option.bind_eq_some.mp h
      obtain ⟨s2, hs2, h⟩ := Option.bind_eq_some.mp h
      unfold BVH.setParent at hs2
      -- reduce the two splice branches to a single `updAt` at `gp`
      have hs1' : (BVH.updAt s gp fun n => { n with left := sib }) = some s1 ∨
          (BVH.updAt s gp fun n => { n with right := sib }) = some s1 := by
        by_cases hglp : gpl = parent
        · rw [if_pos hglp] at hs1
          exact Or.inl hs1
        · rw [if_neg hglp] at hs1
          exact Or.inr hs1
      -- `gp ≠ j`: otherwise the `adjust_bounds` assertions at `gp` fail,
      -- because the splice writes only one child link of `gp` and the
      -- other child link of the true leaf `j` is still `INVALID`
      have hgpj : gp ≠ j := by
        intro he
        subst he
        obtain ⟨l2, r2, hL2, hR2, hl2, hr2⟩ := adjustBounds_guards h hgpi
        rcases hs1' with h1 | h1
        · obtain ⟨m, hm, hm1⟩ := updAt_get_eq h1
          rw [hj] at hm
          cases hm
          by_cases hsj : sib = gp
          · subst hsj
            obtain ⟨m2, hm2, hm22⟩ := updAt_get_eq hs2
            rw [hm1] at hm2
            cases hm2
            exact hr2 ((getRight_eq hR2 hm22).trans hr)
          · have hs2j : s2.nodes[gp]? = some { nd with left := sib } := by
              rw [updAt_get_ne hs2 hsj]
              exact hm1
            exact hr2 ((getRight_eq hR2 hs2j).trans hr)
        · obtain ⟨m, hm, hm1⟩ := updAt_get_eq h1
          rw [hj] at hm
          cases hm
          by_cases hsj : sib = gp
          · subst hsj
            obtain ⟨m2, hm2, hm22⟩ := updAt_get_eq hs2
            rw [hm1] at hm2
            cases hm2
            exact hl2 ((getLeft_eq hL2 hm22).trans hl)
          · have hs2j : s2.nodes[gp]? = some { nd with right := sib } := by
              rw [updAt_get_ne hs2 hsj]
              exact hm1
            exact hl2 ((getLeft_eq hL2 hs2j).trans hl)
      -- `j` survives the splice with at most a parent-pointer update
      have hs1j : s1.nodes[j]? = some nd := by
        rcases hs1' with h1 | h1 <;> rw [updAt_get_ne h1 hgpj] <;> exact hj
      have hs1len : s1.nodes.length = s.nodes.length := by
        rcases hs1' with h1 | h1 <;> exact updAt_length h1
      have hs2len := updAt_length hs2
      by_cases hsj : sib = j
      · obtain ⟨m2, hm2, hm22⟩ := updAt_get_eq hs2
        rw [hsj, hs1j] at hm2
        cases hm2
        rw [hsj] at hm22
        obtain ⟨hkeep, hlen2, _⟩ :=
          adjustBounds_preserves _ s2 gp s' h j _ hm22 hl
        exact ⟨_, hkeep, hl, hr, rfl, by rw [hlen2, hs2len, hs1len]⟩
      · have hs2j : s2.nodes[j]? = some nd := by
          rw [updAt_get_ne hs2 fun he => hsj he]
          exact hs1j
        obtain ⟨hkeep, hlen2, _⟩ :=
          adjustBounds_preserves _ s2 gp s' h j _ hs2j hl
        exact ⟨nd, hkeep, hl, hr, rfl, by rw [hlen2, hs2len, hs1len]⟩
    · rw [if_neg hgpi] at h
      unfold BVH.setParent at h
      have hslen := updAt_length h
      by_cases hlj : leaf = j
      · obtain ⟨m, hm, hm1⟩ := updAt_get_eq h
        rw [hlj, show ({ s with root_id := sib } : BVH O).nodes = s.nodes
          from rfl, hj] at hm
        cases hm
        rw [hlj] at hm1
        exact ⟨_, hm1, hl, hr, rfl, hslen⟩
      · have : s'.nodes[j]? = s.nodes[j]? := updAt_get_ne h fun he => hlj he
        exact ⟨nd, by rw [this]; exact hj, hl, hr, rfl, hslen⟩

/-- A successful sibling search returns a valid arena index. -/
theorem bestSibling_lt {O : Type} (s : BVH O) (aabb : AABB) :
    ∀ (fuel idx b : Nat), BVH.bestSibling s aabb fuel idx = some b →
      b < s.nodes.length := by
  intro fuel
  induction fuel with
  | zero => intro idx b h; exact absurd h (by simp [BVH.bestSibling])
  | succ fuel ih =>
    intro idx b h
    rw [BVH.bestSibling] at h
    obtain ⟨ndi, hndi, h⟩ := Option.bind_eq_some.mp h
    have hidxlt : idx < s.nodes.length := by
      rw [BVH.nodeAt] at hndi
      exact (List.getElem?_eq_some.mp hndi).1
    by_cases hlf : ndi.left = INVALID_BVH_NODE_ID
    · rw [if_pos hlf] at h
      cases h
      exact hidxlt
    · rw [if_neg hlf] at h
      obtain ⟨lnd, hlnd, h⟩ := Option.bind_eq_some.mp h
      obtain ⟨rnd, hrnd, h⟩ := Option.bind_eq_some.mp h
      rcases ite_eq_iff.mp h with ⟨_, h⟩ | ⟨_, h⟩
      · cases h
        exact hidxlt
      · exact ih _ b h

/-- A non-panicking `insert_leaf` on an arena of fewer than `2³²` nodes
preserves the volume of every true leaf (both children `INVALID`): the two
link writes that could target such a node fail the `assert_eq!` first, and
every volume write is guarded by the child assertions. -/
theorem insertLeaf_preserves {O : Type} {s : BVH O} {n : Nat} {s' : BVH O}
    (h : BVH.insertLeaf s n = some s')
    (hlen : s.nodes.length ≤ INVALID_BVH_NODE_ID) {j : Nat} {nd : BVHNode O}
    (hj : s.nodes[j]? = some nd) (hl : nd.left = INVALID_BVH_NODE_ID)
    (hr : nd.right = INVALID_BVH_NODE_ID) :
    ∃ nd', s'.nodes[j]? = some nd' ∧ nd'.volume = nd.volume := by
  rw [BVH.insertLeaf] at h
  by_cases hrt : n = s.root_id
  · rw [if_pos hrt] at h
    cases h
    exact ⟨nd, hj, rfl⟩
  · rw [if_neg hrt] at h
    obtain ⟨aabb, haabb, h⟩ := Option.bind_eq_some.mp h
    obtain ⟨best, hbest, h⟩ := Option.bind_eq_some.mp h
    obtain ⟨oldParent, hop, h⟩ := Option.bind_eq_some.mp h
    obtain ⟨bestHeight, hbh, h⟩ := Option.bind_eq_some.mp h
    obtain ⟨s2, hs2, h⟩ := Option.bind_eq_some.mp h
    obtain ⟨s3, hs3, h⟩ := Option.bind_eq_some.mp h
    obtain ⟨s4, hs4, h⟩ := Option.bind_eq_some.mp h
    have hbestlt : best < s.nodes.length := bestSibling_lt s aabb _ _ _ hbest
    have hbestne : best ≠ INVALID_BVH_NODE_ID := by
      intro he
      rw [he] at hbestlt
      exact absurd (lt_of_lt_of_le hbestlt hlen) (lt_irrefl _)
    have hjlt : j < s.nodes.length := (List.getElem?_eq_some.mp hj).1
    -- the appended internal node does not disturb index `j`
    have hs1j : (BVH.newInternalNode s oldParent (bestHeight + 1) n
        best).1.nodes[j]? = some nd := by
      rw [BVH.newInternalNode]
      simpa using (List.getElem?_append_left hjlt).trans hj
    -- the relink of the old parent cannot target `j`
    have hs2j : s2.nodes[j]? = some nd := by
      by_cases hopi : oldParent ≠ INVALID_BVH_NODE_ID
      · rw [if_pos hopi] at hs2
        obtain ⟨opLeft, hopl, hs2⟩ := Option.bind_eq_some.mp hs2
        have hopj : oldParent ≠ j := by
          intro he
          have hs1j' := hs1j
          rw [← he] at hs1j'
          have hL := getLeft_eq hopl hs1j'
          by_cases hoplb : opLeft = best
          · exact hbestne (by rw [← hoplb, hL, hl])
          · rw [if_neg hoplb] at hs2
            obtain ⟨opRight, hopr, hs2⟩ := Option.bind_eq_some.mp hs2
            have hR := getRight_eq hopr hs1j'
            by_cases hoprb : opRight = best
            · exact hbestne (by rw [← hoprb, hR, hr])
            · rw [if_neg hoprb] at hs2
              exact absurd hs2 (by simp)
        by_cases hoplb : opLeft = best
        · rw [if_pos hoplb] at hs2
          unfold BVH.setLeft at hs2
          rw [updAt_get_ne hs2 hopj]
          exact hs1j
        · rw [if_neg hoplb] at hs2
          obtain ⟨opRight, hopr, hs2⟩ := Option.bind_eq_some.mp hs2
          by_cases hoprb : opRight = best
          · rw [if_pos hoprb] at hs2
            unfold BVH.setRight at hs2
            rw [updAt_get_ne hs2 hopj]
            exact hs1j
          · rw [if_neg hoprb] at hs2
            exact absurd hs2 (by simp)
      · rw [if_neg hopi] at hs2
        cases hs2
        exact hs1j
    -- the two parent-pointer writes keep volume and child links
    unfold BVH.setParent at hs3 hs4
    have hs3j : ∃ m3, s3.nodes[j]? = some m3 ∧ m3.volume = nd.volume ∧
        m3.left = INVALID_BVH_NODE_ID ∧ m3.right = INVALID_BVH_NODE_ID := by
      by_cases hbj : best = j
      · obtain ⟨m, hm, hm1⟩ := updAt_get_eq hs3
        rw [hbj, hs2j] at hm
        cases hm
        rw [hbj] at hm1
        exact ⟨_, hm1, rfl, hl, hr⟩
      · exact ⟨nd, by rw [updAt_get_ne hs3 hbj]; exact hs2j, rfl, hl, hr⟩
    obtain ⟨m3, hm3, hm3v, hm3l, hm3r⟩ := hs3j
    have hs4j : ∃ m4, s4.nodes[j]? = some m4 ∧ m4.volume = nd.volume ∧
        m4.left = INVALID_BVH_NODE_ID := by
      by_cases hnj : n = j
      · obtain ⟨m, hm, hm1⟩ := updAt_get_eq hs4
        rw [hnj, hm3] at hm
        cases hm
        rw [hnj] at hm1
        exact ⟨_, hm1, hm3v, hm3l⟩
      · exact ⟨m3, by rw [updAt_get_ne hs4 hnj]; exact hm3, hm3v, hm3l⟩
    obtain ⟨m4, hm4, hm4v, hm4l⟩ := hs4j
    obtain ⟨hkeep, _, _⟩ := adjustBounds_preserves _ s4 _ s' h j m4 hm4 hm4l
    exact ⟨m4, hkeep, hm4v⟩

/-- Claim C6, amended: when `move` performs a structural update (returns
`true`), the leaf's new stored volume equals the tight AABB expanded by
`AABB_EXTENSION` on all six faces and additionally expanded *along* the
displacement direction by `2 * displacement` on each axis (for each axis,
the min face moves by `2*d` when `d < 0`, otherwise the max face does).
Stated for a proxy that is a true leaf (both child links `INVALID`, as
every leaf the tree ever creates is) in an arena of fewer than `2³²`
nodes. -/
theorem C6_moved_volume_after_restructure {O : Type} (s : BVH O)
    (proxyId : Nat) (aabb : AABB) (disp : Vec3) (nd : BVHNode O)
    (s' : BVH O) (hlen : s.nodes.length ≤ INVALID_BVH_NODE_ID)
    (hnd : BVH.nodeAt s proxyId = some nd)
    (hright : nd.right = INVALID_BVH_NODE_ID)
    (hmv : BVH.moveObj s proxyId aabb disp = some (s', true)) :
    BVH.getVolume s' proxyId = some (BVH.movedVolume aabb disp) := by
  rw [BVH.moveObj] at hmv
  obtain ⟨nd0, hnd0, hmv⟩ := Option.bind_eq_some.mp hmv
  rw [BVH.nodeAt] at hnd
  rw [BVH.nodeAt, hnd] at hnd0
  injection hnd0 with hnd0
  subst hnd0
  by_cases hlf : nd.left ≠ INVALID_BVH_NODE_ID
  · rw [if_pos hlf] at hmv
    exact absurd hmv (by simp)
  · rw [if_neg hlf] at hmv
    have hl : nd.left = INVALID_BVH_NODE_ID := not_not.mp hlf
    by_cases hint : nd.volume.intersects aabb = true
    · rw [if_pos hint] at hmv
      injection hmv with hmv
      exact absurd (congrArg Prod.snd hmv) (by simp)
    · rw [if_neg hint] at hmv
      obtain ⟨s1, h1, hmv⟩ := Option.bind_eq_some.mp hmv
      obtain ⟨s2, h2, hmv⟩ := Option.bind_eq_some.mp hmv
      obtain ⟨s3, h3, hmv⟩ := Option.bind_eq_some.mp hmv
      injection hmv with hmv
      have hs' : s' = s3 := (congrArg Prod.fst hmv).symm
      subst hs'
      obtain ⟨nd1, h1j, h1l, h1r, _, h1len⟩ := removeLeaf_preserves h1 hnd hl hright
      unfold BVH.setVolume at h2
      obtain ⟨m, hm, hm'⟩ := updAt_get_eq h2
      rw [h1j] at hm
      cases hm
      have h2len : s2.nodes.length = s.nodes.length := by
        rw [updAt_length h2, h1len]
      obtain ⟨nd', hnd', hvol⟩ := insertLeaf_preserves h3 (by rw [h2len]; exact hlen)
        hm' h1l h1r
      rw [BVH.getVolume, BVH.nodeAt, hnd']
      simp only [Option.map_some', Option.some.injEq]
      rw [hvol]

/-- Witness for the amended C6 at the concrete two-leaf state `stateC6`:
moving leaf 0 to `tightC6` with displacement `(1,0,0)` stores exactly
`movedVolume tightC6 dispC6`. -/
theorem C6_moved_volume_witness :
    BVH.getVolume stateC6' 0 = some (BVH.movedVolume tightC6 dispC6) := by
  have hs' : BVH.moveObj stateC6 0 tightC6 dispC6 = some (stateC6', true) := by
    with_unfolding_all rfl
  exact C6_moved_volume_after_restructure stateC6 0 tightC6 dispC6
    ⟨⟨⟨-1/10, -1/10, -1/10⟩, ⟨11/10, 11/10, 11/10⟩⟩, INVALID_BVH_NODE_ID,
      INVALID_BVH_NODE_ID, 2, some 1, 0⟩ stateC6'
    (by with_unfolding_all decide) (by with_unfolding_all rfl) rfl hs'

end Survival
